/-
Verification of the golf-photo-ocr core against its specification.

The development shallowly embeds the three core modules of the repository:
  * utils/parsing.py      - convert_date_to_yyyymmdd, parse_yardage_range
  * utils/ocr_processing.py - extract_best_number (candidate scorer/selector)
  * utils/validation.py   - validate_bbox, validate_config

Python strings are modelled as Lean String / List Char; Python floats as
rationals for coordinates and confidences, with the Euclidean distance
(math.hypot) landing in the reals; Python exceptions (ValueError) as
Except String; Python None-able arguments as Option.  The regular
expressions used by the source are fixed concrete patterns, so each one is
translated into an explicit character-scanning function with Python's
leftmost/greedy match semantics.  The one user-supplied regex (the optional
`pattern` argument of extract_best_number, applied with re.search and read
through match.group(1)) is modelled as an abstract String-matching function
returning the captured value.
-/
import Mathlib

/-! ## Generic string helpers (Python primitives used by the source) -/

/-- Python's `str.strip()` on a list of characters: drop whitespace from
both ends. -/
def stripChars (l : List Char) : List Char :=
  ((l.dropWhile Char.isWhitespace).reverse.dropWhile Char.isWhitespace).reverse

/-- `sub` occurs at the head of `l` (prefix test used by `hasSub`). -/
def subAt : List Char → List Char → Bool
  | [], _ => true
  | _ :: _, [] => false
  | c :: cs, d :: ds => c == d && subAt cs ds

/-- `sub` occurs somewhere inside `l` (Python's `in` on strings). -/
def hasSub (sub : List Char) : List Char → Bool
  | [] => sub.isEmpty
  | c :: rest => subAt sub (c :: rest) || hasSub sub rest

/-- Substring containment on strings. -/
def strContains (s sub : String) : Bool := hasSub sub.data s.data

/-- Character class `[A-Z]`. -/
def isUpperAZ (c : Char) : Bool := decide ('A' ≤ c) && decide (c ≤ 'Z')

/-- Python's `str.zfill(2)`: left-pad with zeros to width 2. -/
def zfill2 (s : String) : String := if s.length < 2 then "0" ++ s else s

/-- Python's `str.split('-')` on a list of characters. -/
def splitDash : List Char → List (List Char)
  | [] => [[]]
  | c :: rest =>
    if c = '-' then [] :: splitDash rest
    else
      match splitDash rest with
      | [] => [[c]]
      | p :: ps => (c :: p) :: ps

/-! ## utils/parsing.py : the Date Normalizer -/

/-- The month-name table of `convert_date_to_yyyymmdd`. -/
def month_map : List (String × String) :=
  [("JANUARY", "01"), ("FEBRUARY", "02"), ("MARCH", "03"), ("APRIL", "04"),
   ("MAY", "05"), ("JUNE", "06"), ("JULY", "07"), ("AUGUST", "08"),
   ("SEPTEMBER", "09"), ("OCTOBER", "10"), ("NOVEMBER", "11"), ("DECEMBER", "12")]

/-- Association-list lookup (Python dict membership / indexing). -/
def lookupStr (k : String) : List (String × String) → Option String
  | [] => none
  | (k₀, v) :: rest => if k₀ = k then some v else lookupStr k rest

/-- The `\d{1,2},` part of the date regex: a greedy one-or-two digit day
followed by a comma; returns the day digits and the rest of the input. -/
def parseDay (l : List Char) : Option (List Char × List Char) :=
  match l with
  | c₁ :: rest =>
    if c₁.isDigit then
      match rest with
      | c₂ :: rest₂ =>
        if c₂.isDigit then
          match rest₂ with
          | ',' :: r => some ([c₁, c₂], r)
          | _ => none
        else if c₂ = ',' then some ([c₁], rest₂)
        else none
      | [] => none
    else none
  | [] => none

/-- The `\d{4}` part of the date regex: exactly four digits (trailing input
is ignored, as `re.match` does not anchor the end). -/
def parseYear (l : List Char) : Option (List Char) :=
  match l with
  | a :: b :: c :: d :: _ =>
    if a.isDigit && b.isDigit && c.isDigit && d.isDigit then some [a, b, c, d]
    else none
  | _ => none

/-- `re.match(r'([A-Z]+)\s+(\d{1,2}),\s*(\d{4})', text)`: anchored at
position 0, greedy, not required to consume the whole input.  Returns the
three capture groups (month letters, day digits, year digits). -/
def matchDate (l : List Char) : Option (List Char × List Char × List Char) :=
  let letters := l.takeWhile isUpperAZ
  if letters = [] then none
  else
    let r₁ := l.dropWhile isUpperAZ
    if r₁.takeWhile Char.isWhitespace = [] then none
    else
      match parseDay (r₁.dropWhile Char.isWhitespace) with
      | none => none
      | some (day, r₃) =>
        match parseYear (r₃.dropWhile Char.isWhitespace) with
        | none => none
        | some year => some (letters, day, year)

/-- Body of `convert_date_to_yyyymmdd` on the character list of the input
(after the None/empty guard). -/
def convertDateCore (l : List Char) : String :=
  match matchDate (l.map Char.toUpper) with
  | none => ""
  | some (mon, day, year) =>
    match lookupStr (String.mk mon) month_map with
    | none => ""
    | some mm => String.mk year ++ mm ++ zfill2 (String.mk day)

/-- `convert_date_to_yyyymmdd(date_text)`: `None` and `""` short-circuit to
`""` (Python's `if not date_text`); otherwise the anchored match runs on the
upper-cased text. -/
def convert_date_to_yyyymmdd (date_text : Option String) : String :=
  match date_text with
  | none => ""
  | some s => if s.data.isEmpty then "" else convertDateCore s.data

/-! ## utils/parsing.py : the Range Decomposer -/

/-- Match of `\d+-\d+` anchored at the current position: a maximal nonempty
digit run, a hyphen, a maximal nonempty digit run. -/
def rangeMatchAt (l : List Char) : Option (List Char) :=
  let d₁ := l.takeWhile Char.isDigit
  if d₁ = [] then none
  else
    match l.dropWhile Char.isDigit with
    | '-' :: rest =>
      let d₂ := rest.takeWhile Char.isDigit
      if d₂ = [] then none else some (d₁ ++ '-' :: d₂)
    | _ => none

/-- `re.search(r'(\d+-\d+)', text)`: leftmost match of `rangeMatchAt`. -/
def findRange : List Char → Option (List Char)
  | [] => none
  | c :: rest =>
    match rangeMatchAt (c :: rest) with
    | some m => some m
    | none => findRange rest

/-- Body of `parse_yardage_range` after the None/empty guard: find the
range, check it contains a hyphen, split on the hyphen, and when the split
has exactly two parts return them stripped. -/
def parseRangeCore (l : List Char) : String × String × String :=
  match findRange l with
  | none => ("", "", "")
  | some range_part =>
    if range_part.contains '-' then
      match splitDash range_part with
      | [a, b] =>
        (String.mk range_part, String.mk (stripChars a), String.mk (stripChars b))
      | _ => ("", "", "")
    else ("", "", "")

/-- `parse_yardage_range(range_text)`: `None` and `""` short-circuit to the
all-empty triple; every other failure path also returns it. -/
def parse_yardage_range (range_text : Option String) : String × String × String :=
  match range_text with
  | none => ("", "", "")
  | some s => if s.data.isEmpty then ("", "", "") else parseRangeCore s.data

/-! ## utils/ocr_processing.py : the Candidate Scorer/Selector -/

/-- One EasyOCR recognition result: `(bbox, text, confidence)`.  The bbox is
a quadrilateral given as corner points; coordinates and the confidence are
modelled as rationals. -/
structure Fragment where
  bbox : List (ℚ × ℚ)
  text : String
  conf : ℚ

/-- One scored candidate `(score, extracted_value, conf)`. -/
structure Candidate where
  score : ℝ
  value : String
  conf : ℚ

/-- The user-supplied regex of `extract_best_number`, abstracted as: apply
`re.search(pattern, clean_text)` and read `match.group(1)`, i.e. a function
from the cleaned text to the optional captured value. -/
abbrev Matcher := List Char → Option String

/-- `clean_text = text.strip()`. -/
def cleanText (f : Fragment) : List Char := stripChars f.text.data

/-- The optional fractional part `\.?\d*` following the integer digits. -/
def fracPart (l : List Char) : List Char :=
  match l with
  | '.' :: r => '.' :: r.takeWhile Char.isDigit
  | _ => []

/-- Match of `[+-]?\d+\.?\d*` anchored at the current position (greedy, with
Python's backtracking: a sign not followed by a digit fails here). -/
def matchNumAt (l : List Char) : Option (List Char) :=
  match l with
  | [] => none
  | c :: rest =>
    if c = '+' ∨ c = '-' then
      let run := rest.takeWhile Char.isDigit
      if run = [] then none
      else some (c :: (run ++ fracPart (rest.dropWhile Char.isDigit)))
    else
      let run := (c :: rest).takeWhile Char.isDigit
      if run = [] then none
      else some (run ++ fracPart ((c :: rest).dropWhile Char.isDigit))

/-- `re.search(r'[+-]?\d+\.?\d*', text)`: leftmost match. -/
def findNum : List Char → Option (List Char)
  | [] => none
  | c :: rest =>
    match matchNumAt (c :: rest) with
    | some m => some m
    | none => findNum rest

/-- Default numeric extraction of `extract_best_number`: skip the fragment
when it has no digit, otherwise take the first `[+-]?\d+\.?\d*` match and
re-attach an explicit `+` sign present anywhere in the cleaned text. -/
def numericValue (clean : List Char) : Option String :=
  if clean.any Char.isDigit then
    match findNum clean with
    | none => none
    | some m =>
      if clean.contains '+' ∧ ¬ m.head? = some '+' then
        some (String.mk ('+' :: m.dropWhile (fun c => c == '+' || c == '-')))
      else some (String.mk m)
  else none

/-- `text_center`: arithmetic mean of the four corner x- and y-coordinates
(the source always divides by 4). -/
def centroid (f : Fragment) : ℚ × ℚ :=
  (((f.bbox.map Prod.fst).sum) / 4, ((f.bbox.map Prod.snd).sum) / 4)

/-- `math.hypot`: Euclidean distance between two points. -/
noncomputable def distance (p q : ℚ × ℚ) : ℝ :=
  Real.sqrt (((p.1 : ℝ) - (q.1 : ℝ)) ^ 2 + ((p.2 : ℝ) - (q.2 : ℝ)) ^ 2)

/-- Per-fragment processing of `extract_best_number`: extraction (pattern or
numeric mode), decimal bonus, and the two-branch score. -/
noncomputable def mkCandidate (box_center : ℚ × ℚ) (expect_decimal : Bool)
    (pattern : Option Matcher) (f : Fragment) : Option Candidate :=
  let clean := cleanText f
  let ev? : Option String :=
    match pattern with
    | some m => m clean
    | none => numericValue clean
  match ev? with
  | none => none
  | some v =>
    let d := distance (centroid f) box_center
    let decimal_bonus : ℝ :=
      if pattern.isNone && expect_decimal && v.data.contains '.' then -10 else 0
    let score : ℝ :=
      match pattern with
      | none => d + decimal_bonus
      | some _ => -(f.conf : ℝ) * 100
    some ⟨score, v, f.conf⟩

/-- The recorded candidate list, in input order. -/
noncomputable def candidates (ocr_results : List Fragment) (box_center : ℚ × ℚ)
    (expect_decimal : Bool) (pattern : Option Matcher) : List Candidate :=
  ocr_results.filterMap (mkCandidate box_center expect_decimal pattern)

/-- Stable insertion step for the ascending sort by score. -/
noncomputable def insertScore (c : Candidate) : List Candidate → List Candidate
  | [] => [c]
  | x :: xs => if c.score ≤ x.score then c :: x :: xs else x :: insertScore c xs

/-- `candidates.sort(key=lambda x: x[0])`: Python's sort is stable, and a
stable ascending sort agrees with insertion sort using `≤`. -/
noncomputable def sortByScore : List Candidate → List Candidate
  | [] => []
  | c :: cs => insertScore c (sortByScore cs)

/-- `extract_best_number(ocr_results, box_center, expect_decimal, pattern)`. -/
noncomputable def extract_best_number (ocr_results : List Fragment)
    (box_center : ℚ × ℚ) (expect_decimal : Bool) (pattern : Option Matcher) :
    String :=
  if (candidates ocr_results box_center expect_decimal pattern).isEmpty then ""
  else
    match sortByScore (candidates ocr_results box_center expect_decimal pattern) with
    | [] => ""
    | c :: _ => c.value

/-- The first candidate attaining the minimal score (head of any stable
ascending sort). -/
noncomputable def firstMinCand : List Candidate → Option Candidate
  | [] => none
  | c :: cs =>
    match firstMinCand cs with
    | none => some c
    | some m => if m.score < c.score then some m else some c

/-! ## utils/validation.py : Bounding-Box and Configuration Validators -/

/-- A JSON-like Python value, as far as the validators inspect it. -/
inductive PyVal where
  | num (q : ℚ)
  | str (s : String)
  | list (xs : List PyVal)
  | dict (kvs : List (String × PyVal))

/-- `type(v).__name__` for the error messages (int/float are merged into
`number` by the embedding). -/
def pyTypeName : PyVal → String
  | .num _ => "number"
  | .str _ => "str"
  | .list _ => "list"
  | .dict _ => "dict"

/-- Association-list lookup for `PyVal` dictionaries (Python dict `in` /
indexing; dict iteration order is insertion order). -/
def lookupKey (k : String) : List (String × PyVal) → Option PyVal
  | [] => none
  | (k₀, v) :: rest => if k₀ = k then some v else lookupKey k rest

/-- The last part of `validate_bbox`: the ordered numeric checks on
`x, y, width, height` (source lines 34-61). -/
def checkBboxNums (x y w h : ℚ) (n : String) : Except String Unit :=
  if x < 0 then
    .error ("Invalid bbox for " ++ n ++ ": x coordinate cannot be negative, got " ++ toString x)
  else if y < 0 then
    .error ("Invalid bbox for " ++ n ++ ": y coordinate cannot be negative, got " ++ toString y)
  else if w ≤ 0 then
    .error ("Invalid bbox for " ++ n ++ ": width must be positive, got " ++ toString w)
  else if h ≤ 0 then
    .error ("Invalid bbox for " ++ n ++ ": height must be positive, got " ++ toString h)
  else if 10000 < x then
    .error ("Invalid bbox for " ++ n ++ ": x coordinate too large (" ++ toString x ++ " > 10000)")
  else if 10000 < y then
    .error ("Invalid bbox for " ++ n ++ ": y coordinate too large (" ++ toString y ++ " > 10000)")
  else if 10000 < w then
    .error ("Invalid bbox for " ++ n ++ ": width too large (" ++ toString w ++ " > 10000)")
  else if 10000 < h then
    .error ("Invalid bbox for " ++ n ++ ": height too large (" ++ toString h ++ " > 10000)")
  else if 10000 < x + w then
    .error ("Invalid bbox for " ++ n ++ ": bounding box extends beyond reasonable image width (x + width = " ++ toString (x + w) ++ " > 10000)")
  else if 10000 < y + h then
    .error ("Invalid bbox for " ++ n ++ ": bounding box extends beyond reasonable image height (y + height = " ++ toString (y + h) ++ " > 10000)")
  else .ok ()

/-- `validate_bbox(bbox, metric_name)`: format checks (list, length 4, each
element a number, reported in index order), then the ordered numeric
checks.  The source's quotation marks inside messages are dropped. -/
def validate_bbox (bbox : PyVal) (metric_name : String) : Except String Unit :=
  match bbox with
  | .list elems =>
    match elems with
    | [a₀, a₁, a₂, a₃] =>
      match a₀ with
      | .num x =>
        match a₁ with
        | .num y =>
          match a₂ with
          | .num w =>
            match a₃ with
            | .num h => checkBboxNums x y w h metric_name
            | _ => .error ("Invalid bbox for " ++ metric_name ++ ": height must be a number, got " ++ pyTypeName a₃)
          | _ => .error ("Invalid bbox for " ++ metric_name ++ ": width must be a number, got " ++ pyTypeName a₂)
        | _ => .error ("Invalid bbox for " ++ metric_name ++ ": y must be a number, got " ++ pyTypeName a₁)
      | _ => .error ("Invalid bbox for " ++ metric_name ++ ": x must be a number, got " ++ pyTypeName a₀)
    | _ =>
      .error ("Invalid bbox format for " ++ metric_name ++ ": must be [x, y, width, height], got " ++ toString elems.length ++ " elements")
  | _ => .error ("Invalid bbox for " ++ metric_name ++ ": must be a list, got " ++ pyTypeName bbox)

/-- Modelled from the spec: the ordered list of numeric checks of 4.1
(predicate violated, message), used to state that the first violated check
determines the failure message. -/
def bboxChecks (x y w h : ℚ) (n : String) : List (Bool × String) :=
  [(decide (x < 0), "Invalid bbox for " ++ n ++ ": x coordinate cannot be negative, got " ++ toString x),
   (decide (y < 0), "Invalid bbox for " ++ n ++ ": y coordinate cannot be negative, got " ++ toString y),
   (decide (w ≤ 0), "Invalid bbox for " ++ n ++ ": width must be positive, got " ++ toString w),
   (decide (h ≤ 0), "Invalid bbox for " ++ n ++ ": height must be positive, got " ++ toString h),
   (decide (10000 < x), "Invalid bbox for " ++ n ++ ": x coordinate too large (" ++ toString x ++ " > 10000)"),
   (decide (10000 < y), "Invalid bbox for " ++ n ++ ": y coordinate too large (" ++ toString y ++ " > 10000)"),
   (decide (10000 < w), "Invalid bbox for " ++ n ++ ": width too large (" ++ toString w ++ " > 10000)"),
   (decide (10000 < h), "Invalid bbox for " ++ n ++ ": height too large (" ++ toString h ++ " > 10000)"),
   (decide (10000 < x + w), "Invalid bbox for " ++ n ++ ": bounding box extends beyond reasonable image width (x + width = " ++ toString (x + w) ++ " > 10000)"),
   (decide (10000 < y + h), "Invalid bbox for " ++ n ++ ": bounding box extends beyond reasonable image height (y + height = " ++ toString (y + h) ++ " > 10000)")]

/-- Modelled from the spec: the message of the first violated check. -/
def firstFailing : List (Bool × String) → Option String
  | [] => none
  | (b, m) :: rest => if b then some m else firstFailing rest

/-- The four mandatory metric names, in their declared order. -/
def required_metrics : List String :=
  ["DISTANCE_TO_PIN", "CARRY", "FROM_PIN", "STROKES_GAINED"]

/-- First loop of `validate_config`: each required metric must be present,
be a dict, contain a bbox, and that bbox must validate. -/
def checkRequired (metrics : List (String × PyVal)) : List String → Except String Unit
  | [] => .ok ()
  | m :: rest =>
    match lookupKey m metrics with
    | none => .error ("Missing required metric in configuration: " ++ m)
    | some v =>
      match v with
      | .dict kvs =>
        match lookupKey "bbox" kvs with
        | none => .error ("Missing bbox for metric: " ++ m)
        | some b =>
          match validate_bbox b m with
          | .ok _ => checkRequired metrics rest
          | .error e => .error e
      | _ => .error ("Metric " ++ m ++ " must be a dictionary")

/-- Second loop of `validate_config`: every entry must be a dict, and a
bbox, when present, must validate. -/
def checkAllMetrics : List (String × PyVal) → Except String Unit
  | [] => .ok ()
  | (name, v) :: rest =>
    match v with
    | .dict kvs =>
      match lookupKey "bbox" kvs with
      | some b =>
        match validate_bbox b name with
        | .ok _ => checkAllMetrics rest
        | .error e => .error e
      | none => checkAllMetrics rest
    | _ => .error ("Metric " ++ name ++ " must be a dictionary")

/-- `validate_config(config)`: the `metrics` section must exist and be a
dict; then the required-metric loop runs, then the all-metrics loop. -/
def validate_config (config : List (String × PyVal)) : Except String Unit :=
  match lookupKey "metrics" config with
  | none => .error "Configuration file must contain metrics section"
  | some mv =>
    match mv with
    | .dict metrics =>
      match checkRequired metrics required_metrics with
      | .error e => .error e
      | .ok _ => checkAllMetrics metrics
    | _ => .error "Configuration metrics section must be a dictionary"

/-- A required metric passing all its checks of the first loop: present,
a dict, with a bbox that validates. -/
def goodRequired (metrics : List (String × PyVal)) (m : String) : Prop :=
  ∃ kvs b, lookupKey m metrics = some (.dict kvs) ∧ lookupKey "bbox" kvs = some b ∧
    validate_bbox b m = .ok ()

/-- A metrics entry passing the second loop: a dict whose bbox, when
present, validates. -/
def entryOK (nv : String × PyVal) : Prop :=
  ∃ kvs, nv.2 = .dict kvs ∧
    ∀ b, lookupKey "bbox" kvs = some b → validate_bbox b nv.1 = .ok ()

/-! ## Lemmas about the scorer: sorting, stability, selection -/

lemma insertScore_ne_nil (c : Candidate) (l : List Candidate) :
    insertScore c l ≠ [] := by
  cases l with
  | nil => simp [insertScore]
  | cons x xs =>
    simp only [insertScore]
    split <;> simp

lemma sortByScore_head (cs : List Candidate) :
    (sortByScore cs).head? = firstMinCand cs := by
  induction cs with
  | nil => rfl
  | cons c cs ih =>
    simp only [sortByScore, firstMinCand]
    cases h : firstMinCand cs with
    | none =>
      have hnil : sortByScore cs = [] := by
        rw [← List.head?_eq_none_iff, ih, h]
      rw [hnil]
      simp [insertScore]
    | some m =>
      have hcons : ∃ t, sortByScore cs = m :: t := by
        cases hs : sortByScore cs with
        | nil => rw [hs] at ih; rw [h] at ih; simp at ih
        | cons a t =>
          rw [hs] at ih; rw [h] at ih
          simp at ih
          exact ⟨t, by rw [ih]⟩
      obtain ⟨t, ht⟩ := hcons
      rw [ht]
      simp only [insertScore]
      split
      · rename_i hle
        simp only [List.head?_cons]
        rw [if_neg (not_lt.mpr hle)]
      · rename_i hlt
        simp only [List.head?_cons]
        rw [if_pos (lt_of_not_le hlt)]

lemma firstMinCand_mem (cs : List Candidate) (m : Candidate)
    (h : firstMinCand cs = some m) : m ∈ cs := by
  induction cs generalizing m with
  | nil => simp [firstMinCand] at h
  | cons c cs ih =>
    rw [List.mem_cons]
    simp only [firstMinCand] at h
    cases hc : firstMinCand cs with
    | none =>
      rw [hc] at h
      simp only [Option.some.injEq] at h
      exact Or.inl h.symm
    | some m' =>
      rw [hc] at h
      change (if m'.score < c.score then some m' else some c) = some m at h
      by_cases hlt : m'.score < c.score
      · rw [if_pos hlt] at h
        injection h with h
        subst h
        exact Or.inr (ih _ hc)
      · rw [if_neg hlt] at h
        injection h with h
        subst h
        exact Or.inl rfl

/-- The head of the stable ascending sort is the earliest candidate
attaining the minimal score. -/
lemma firstMinCand_first (cs : List Candidate) (i : ℕ) (hi : i < cs.length)
    (hmin : ∀ k (hk : k < cs.length), cs[i].score ≤ cs[k].score)
    (hlt : ∀ k (hk : k < cs.length), k < i → cs[i].score < cs[k].score) :
    firstMinCand cs = some cs[i] := by
  induction cs generalizing i with
  | nil => exact absurd hi (Nat.not_lt_zero i)
  | cons c cs ih =>
    cases i with
    | zero =>
      simp only [List.getElem_cons_zero]
      cases h : firstMinCand cs with
      | none => simp [firstMinCand, h]
      | some m =>
        have hm : m ∈ cs := firstMinCand_mem cs m h
        obtain ⟨k, hk, hkm⟩ := List.mem_iff_getElem.mp hm
        have hle : c.score ≤ m.score := by
          have := hmin (k + 1) (by simpa using Nat.succ_lt_succ hk)
          rw [List.getElem_cons_succ, hkm] at this
          simpa using this
        simp [firstMinCand, h, if_neg (not_lt.mpr hle)]
    | succ j =>
      have hj : j < cs.length := by simpa using Nat.lt_of_succ_lt_succ hi
      have hmin' : ∀ k (hk : k < cs.length), cs[j].score ≤ cs[k].score := by
        intro k hk
        have := hmin (k + 1) (by simpa using Nat.succ_lt_succ hk)
        simpa using this
      have hlt' : ∀ k (hk : k < cs.length), k < j → cs[j].score < cs[k].score := by
        intro k hk hkj
        have := hlt (k + 1) (by simpa using Nat.succ_lt_succ hk) (Nat.succ_lt_succ hkj)
        simpa using this
      have hrec := ih j hj hmin' hlt'
      have hc : cs[j].score < c.score := by
        have := hlt 0 (by simp) (Nat.succ_pos j)
        simpa using this
      simp only [List.getElem_cons_succ]
      simp [firstMinCand, hrec, if_pos hc]

/-- `extract_best_number` returns the value of the earliest minimal-score
candidate (or `""` when there is none). -/
lemma extract_eq_firstMin (frs : List Fragment) (c : ℚ × ℚ) (e : Bool)
    (p : Option Matcher) :
    extract_best_number frs c e p =
      (match firstMinCand (candidates frs c e p) with
       | none => ""
       | some cd => cd.value) := by
  unfold extract_best_number
  cases h : candidates frs c e p with
  | nil => simp [firstMinCand, sortByScore]
  | cons a l =>
    have hh := sortByScore_head (a :: l)
    simp only [List.isEmpty_cons]
    cases hs : sortByScore (a :: l) with
    | nil =>
      exfalso
      simp only [sortByScore] at hs
      exact insertScore_ne_nil a (sortByScore l) hs
    | cons b t =>
      rw [hs] at hh
      simp only [List.head?_cons] at hh
      rw [← hh]
      simp

/-! ## Claim C1: stability of the ascending sort by score -/

/-- C1: for every fragment sequence, when two or more recorded candidates
have exactly equal scores, `select` returns the `extracted_value` of the
candidate whose fragment appears earliest in the input sequence (here: the
candidate at position `i`, tied with the later position `j` and minimal,
with no earlier candidate scoring equally low), regardless of the
confidences of the later tied candidates — the ascending sort by score is
stable. -/
theorem select_stable_tie (frs : List Fragment) (c : ℚ × ℚ) (e : Bool)
    (p : Option Matcher) (i j : ℕ)
    (hi : i < (candidates frs c e p).length)
    (hj : j < (candidates frs c e p).length) (hij : i < j)
    (heq : (candidates frs c e p)[i].score = (candidates frs c e p)[j].score)
    (hmin : ∀ k (hk : k < (candidates frs c e p).length),
      (candidates frs c e p)[i].score ≤ (candidates frs c e p)[k].score)
    (hne : ∀ k (hk : k < (candidates frs c e p).length), k < i →
      (candidates frs c e p)[i].score ≠ (candidates frs c e p)[k].score) :
    extract_best_number frs c e p = (candidates frs c e p)[i].value := by
  have hlt : ∀ k (hk : k < (candidates frs c e p).length), k < i →
      (candidates frs c e p)[i].score < (candidates frs c e p)[k].score :=
    fun k hk hki => lt_of_le_of_ne (hmin k hk) (hne k hk hki)
  rw [extract_eq_firstMin,
    firstMinCand_first (candidates frs c e p) i hi hmin hlt]

/-- Quadrilateral used by the concrete witnesses. -/
def wBox : List (ℚ × ℚ) := [(0, 0), (2, 0), (2, 4), (0, 4)]

/-- Two fragments sharing one quadrilateral (hence exactly tied scores) but
with different confidences. -/
def wFrags1 : List Fragment := [⟨wBox, "12", 9 / 10⟩, ⟨wBox, "34", 1 / 2⟩]

/-- The candidates recorded for `wFrags1`. -/
noncomputable def wCands1 : List Candidate := candidates wFrags1 (10, 10) false none

theorem select_stable_tie_witness :
    (wCands1.get ⟨0, by decide⟩).score = (wCands1.get ⟨1, by decide⟩).score ∧
    extract_best_number wFrags1 (10, 10) false none = (wCands1.get ⟨0, by decide⟩).value := by
  constructor
  · rfl
  · apply select_stable_tie wFrags1 (10, 10) false none 0 1 (by decide) (by decide)
      (by decide) rfl
    · intro k hk
      have hl : (candidates wFrags1 (10, 10) false none).length = 2 := rfl
      have hk2 : k < 2 := hl ▸ hk
      interval_cases k
      · exact le_refl _
      · exact le_of_eq rfl
    · intro k hk hk0
      exact absurd hk0 (Nat.not_lt_zero k)

/-! ## Claim C9: empty input and digit-free input -/

/-- C9: `select` returns `""` for the empty fragment sequence, and, with no
pattern supplied, for every fragment sequence in which no fragment's
trimmed text contains a digit. -/
theorem select_empty_or_digitless :
    (∀ (c : ℚ × ℚ) (e : Bool) (p : Option Matcher),
        extract_best_number [] c e p = "") ∧
    (∀ (frs : List Fragment) (c : ℚ × ℚ) (e : Bool),
        (∀ f ∈ frs, (stripChars f.text.data).any Char.isDigit = false) →
        extract_best_number frs c e none = "") := by
  constructor
  · intro c e p
    rfl
  · intro frs c e h
    have hc : candidates frs c e none = [] := by
      rw [candidates, List.filterMap_eq_nil_iff]
      intro f hf
      simp [mkCandidate, numericValue, cleanText, h f hf]
    unfold extract_best_number
    rw [hc]
    rfl

theorem select_empty_or_digitless_witness :
    (∀ f ∈ [Fragment.mk wBox "abc" (1 / 2)],
        (stripChars f.text.data).any Char.isDigit = false) ∧
    extract_best_number [Fragment.mk wBox "abc" (1 / 2)] (0, 0) true none = "" ∧
    extract_best_number [] (0, 0) true none = "" :=
  ⟨by decide,
   select_empty_or_digitless.2 [Fragment.mk wBox "abc" (1 / 2)] (0, 0) true (by decide),
   select_empty_or_digitless.1 (0, 0) true none⟩

/-! ## Claim C10: with a pattern, expect_decimal is irrelevant -/

/-- C10: when a pattern is supplied, the value of `expect_decimal` has no
effect on the result of `select`: the decimal bonus is only applied in
default numeric mode. -/
theorem select_pattern_ignores_expect_decimal (frs : List Fragment)
    (c : ℚ × ℚ) (m : Matcher) (e e' : Bool) :
    extract_best_number frs c e (some m) = extract_best_number frs c e' (some m) := by
  have hmk : mkCandidate c e (some m) = mkCandidate c e' (some m) := by
    funext f
    simp only [mkCandidate]
  unfold extract_best_number candidates
  rw [hmk]

/-! ## Claim C2: the decimal-bonus law -/

/-- C2: with `expect_decimal = true` and no pattern, for exactly two
candidate-producing fragments — first one whose extracted value has no
decimal point at centroid distance d1 from the region center, then one
whose extracted value has a decimal point at distance d2 — `select` returns
the decimal fragment's value iff `d2 - 10 < d1`. -/
theorem select_decimal_bonus (f g : Fragment) (c : ℚ × ℚ) (v w : String)
    (hf : numericValue (cleanText f) = some v) (hv : v.data.contains '.' = false)
    (hg : numericValue (cleanText g) = some w) (hw : w.data.contains '.' = true) :
    (extract_best_number [f, g] c true none = w ↔
      distance (centroid g) c - 10 < distance (centroid f) c) := by
  have hne : v ≠ w := fun hvw => by rw [hvw, hw] at hv; cases hv
  have hv' : '.' ∉ v.data := by simpa using hv
  have hw' : '.' ∈ w.data := by simpa using hw
  have hcf : mkCandidate c true none f =
      some ⟨distance (centroid f) c + 0, v, f.conf⟩ := by
    simp [mkCandidate, hf, hv']
  have hcg : mkCandidate c true none g =
      some ⟨distance (centroid g) c + (-10), w, g.conf⟩ := by
    simp [mkCandidate, hg, hw']
  have hcs : candidates [f, g] c true none =
      [⟨distance (centroid f) c + 0, v, f.conf⟩,
       ⟨distance (centroid g) c + (-10), w, g.conf⟩] := by
    rw [candidates, List.filterMap_cons_some hcf, List.filterMap_cons_some hcg,
      List.filterMap_nil]
  rw [extract_eq_firstMin, hcs]
  simp only [firstMinCand]
  by_cases hlt : distance (centroid g) c + (-10) <
      distance (centroid f) c + 0
  · rw [if_pos hlt]
    constructor
    · intro _; linarith
    · intro _; rfl
  · rw [if_neg hlt]
    constructor
    · intro hvw; exact absurd hvw hne
    · intro hd; exact absurd (by linarith : distance (centroid g) c + (-10) <
        distance (centroid f) c + 0) hlt

/-- Decimal-bonus witness fragments: an integer candidate and a decimal
candidate. -/
def wFragInt : Fragment := ⟨[(3, 4), (3, 4), (3, 4), (3, 4)], "42", 9 / 10⟩

/-- The decimal fragment of the C2 witness. -/
def wFragDec : Fragment := ⟨[(0, 20), (0, 20), (0, 20), (0, 20)], "3.5", 8 / 10⟩

theorem select_decimal_bonus_witness :
    numericValue (cleanText wFragInt) = some "42" ∧
    ("42").data.contains '.' = false ∧
    numericValue (cleanText wFragDec) = some "3.5" ∧
    ("3.5").data.contains '.' = true ∧
    (extract_best_number [wFragInt, wFragDec] (0, 0) true none = "3.5" ↔
      distance (centroid wFragDec) (0, 0) - 10 < distance (centroid wFragInt) (0, 0)) :=
  ⟨by decide, by decide, by decide, by decide,
   select_decimal_bonus wFragInt wFragDec (0, 0) "42" "3.5"
     (by decide) (by decide) (by decide) (by decide)⟩

/-! ## Claim C4: the pattern-confidence law -/

/-- In pattern mode the earliest strictly-minimal candidate produced by the
per-fragment map wins; stated for `List.filterMap` over the fragments. -/
lemma firstMin_filterMap (mk : Fragment → Option Candidate) (l : List Fragment)
    (i : ℕ) (hi : i < l.length) (cd : Candidate) (hcd : mk l[i] = some cd)
    (hstrict : ∀ j (hj : j < l.length), j ≠ i → ∀ c', mk l[j] = some c' →
      cd.score < c'.score) :
    firstMinCand (l.filterMap mk) = some cd := by
  induction l generalizing i with
  | nil => exact absurd hi (Nat.not_lt_zero i)
  | cons a l ih =>
    cases i with
    | zero =>
      rw [List.getElem_cons_zero] at hcd
      rw [List.filterMap_cons_some hcd]
      cases h : firstMinCand (l.filterMap mk) with
      | none => simp [firstMinCand, h]
      | some m =>
        have hm := firstMinCand_mem _ _ h
        obtain ⟨b, hb, hfb⟩ := List.mem_filterMap.mp hm
        obtain ⟨k, hk, hkb⟩ := List.mem_iff_getElem.mp hb
        have hlt : cd.score < m.score := by
          apply hstrict (k + 1) (by simpa using Nat.succ_lt_succ hk)
            (Nat.succ_ne_zero k) m
          rw [List.getElem_cons_succ, hkb]
          exact hfb
        simp [firstMinCand, h, if_neg (lt_asymm hlt)]
    | succ n =>
      have hn : n < l.length := by simpa using Nat.lt_of_succ_lt_succ hi
      have hcd' : mk l[n] = some cd := by
        rw [← List.getElem_cons_succ a l n hi]
        exact hcd
      have hstrict' : ∀ j (hj : j < l.length), j ≠ n → ∀ c', mk l[j] = some c' →
          cd.score < c'.score := by
        intro j hj hjn c' hc'
        apply hstrict (j + 1) (by simpa using Nat.succ_lt_succ hj) (by omega) c'
        rw [List.getElem_cons_succ]
        exact hc'
      have hrec := ih n hn hcd' hstrict'
      cases ha : mk a with
      | none => rw [List.filterMap_cons_none ha]; exact hrec
      | some c0 =>
        rw [List.filterMap_cons_some ha]
        have h0 : cd.score < c0.score := by
          apply hstrict 0 (by simp) (by omega) c0
          rw [List.getElem_cons_zero]
          exact ha
        simp [firstMinCand, hrec, if_pos h0]

/-- C4: when a pattern is supplied and the pattern-matching fragment at
position `i` has strictly the highest confidence among matching fragments
(as is the case whenever matching confidences are pairwise distinct),
`select` returns the value captured from that fragment, irrespective of
geometric distances. -/
theorem select_pattern_confidence (frs : List Fragment) (c : ℚ × ℚ) (e : Bool)
    (m : Matcher) (i : ℕ) (hi : i < frs.length) (v : String)
    (hm : m (cleanText frs[i]) = some v)
    (hmax : ∀ j (hj : j < frs.length), j ≠ i → ∀ w, m (cleanText frs[j]) = some w →
      frs[j].conf < frs[i].conf) :
    extract_best_number frs c e (some m) = v := by
  have hcd : mkCandidate c e (some m) frs[i] =
      some ⟨-((frs[i].conf : ℚ) : ℝ) * 100, v, frs[i].conf⟩ := by
    simp only [mkCandidate, hm]
  have hstrict : ∀ j (hj : j < frs.length), j ≠ i → ∀ c',
      mkCandidate c e (some m) frs[j] = some c' →
      (Candidate.mk (-((frs[i].conf : ℚ) : ℝ) * 100) v frs[i].conf).score < c'.score := by
    intro j hj hji c' hc'
    cases hw : m (cleanText frs[j]) with
    | none => simp [mkCandidate, hw] at hc'
    | some w =>
      simp only [mkCandidate, hw, Option.some.injEq] at hc'
      have hconf := hmax j hj hji w hw
      rw [← hc']
      show -((frs[i].conf : ℚ) : ℝ) * 100 < -((frs[j].conf : ℚ) : ℝ) * 100
      have : ((frs[j].conf : ℚ) : ℝ) < ((frs[i].conf : ℚ) : ℝ) := by
        exact_mod_cast hconf
      linarith
  have hfm := firstMin_filterMap (mkCandidate c e (some m)) frs i hi _ hcd hstrict
  rw [extract_eq_firstMin,
    show candidates frs c e (some m) = frs.filterMap (mkCandidate c e (some m)) from rfl,
    hfm]

/-- Concrete matcher used by the C4 witness, like the shot-id pattern: a
leading hash followed by digits, capturing the digits. -/
def hashNum (l : List Char) : Option String :=
  match l with
  | '#' :: rest =>
    let ds := rest.takeWhile Char.isDigit
    if ds = [] then none else some (String.mk ds)
  | _ => none

/-- Pattern-mode witness fragments: a near low-confidence match and a far
high-confidence match. -/
def wFrags4 : List Fragment :=
  [⟨[(0, 0), (2, 0), (2, 2), (0, 2)], "#15", 7 / 10⟩,
   ⟨[(100, 100), (102, 100), (102, 102), (100, 102)], "#23", 9 / 10⟩]

theorem select_pattern_confidence_witness :
    hashNum (cleanText (wFrags4.get ⟨1, by decide⟩)) = some "23" ∧
    extract_best_number wFrags4 (0, 0) false (some hashNum) = "23" := by
  refine ⟨by decide, ?_⟩
  apply select_pattern_confidence wFrags4 (0, 0) false hashNum 1 (by decide) "23"
    (by decide)
  intro j hj hji w hw
  have hj2 : j < 2 := by
    have hl : wFrags4.length = 2 := rfl
    omega
  interval_cases j
  · norm_num [wFrags4]
  · exact absurd rfl hji

/-! ## Claim C3: whitespace handling of the Date Normalizer -/

/-- C3 counterexample: trailing whitespace around the date phrase does NOT
cause an empty result — the anchored match need not consume the whole
input, so the claim that whitespace at either end yields `""` is false. -/
theorem date_trailing_ws_counterexample :
    convert_date_to_yyyymmdd (some "JULY 1, 2025 ") = "20250701" := by decide

lemma isUpperAZ_toUpper_ws (c : Char) (h : c.isWhitespace = true) :
    isUpperAZ (Char.toUpper c) = false := by
  have h' : ((c = ' ' ∨ c = '\t') ∨ c = '\x0d') ∨ c = '\n' := by
    simpa [Char.isWhitespace] using h
  rcases h' with ((rfl | rfl) | rfl) | rfl <;> decide

/-- C3 (amended): an input starting with a whitespace character yields `""`
(the match is anchored at position 0 without trimming), and empty or null
input yields `""` immediately; trailing whitespace after the date phrase,
however, does not prevent a match. -/
theorem date_leading_ws_empty :
    (∀ (s : String) (c : Char) (l : List Char), s.data = c :: l →
        c.isWhitespace = true → convert_date_to_yyyymmdd (some s) = "") ∧
    convert_date_to_yyyymmdd none = "" ∧
    convert_date_to_yyyymmdd (some "") = "" := by
  refine ⟨?_, rfl, rfl⟩
  intro s c l hdata hws
  show (if s.data.isEmpty = true then "" else convertDateCore s.data) = ""
  rw [hdata]
  simp [convertDateCore, matchDate, List.takeWhile_cons, isUpperAZ_toUpper_ws c hws]

theorem date_leading_ws_empty_witness :
    (" JULY 1, 2025").data = ' ' :: ("JULY 1, 2025").data ∧
    Char.isWhitespace ' ' = true ∧
    convert_date_to_yyyymmdd (some " JULY 1, 2025") = "" :=
  ⟨by decide, by decide,
   date_leading_ws_empty.1 " JULY 1, 2025" ' ' ("JULY 1, 2025").data
     (by decide) (by decide)⟩

/-! ## Lemmas about the Range Decomposer -/

lemma all_takeWhile (p : Char → Bool) (l : List Char) :
    ∀ c ∈ l.takeWhile p, p c = true := fun _ hc => List.mem_takeWhile_imp hc

lemma rangeMatchAt_shape (l r : List Char) (h : rangeMatchAt l = some r) :
    ∃ a b, r = a ++ '-' :: b ∧ a ≠ [] ∧ b ≠ [] ∧
      (∀ c ∈ a, c.isDigit = true) ∧ (∀ c ∈ b, c.isDigit = true) := by
  simp only [rangeMatchAt] at h
  split at h
  · cases h
  · rename_i h1
    split at h
    · rename_i rest heq
      split at h
      · cases h
      · rename_i h2
        injection h with h
        exact ⟨l.takeWhile Char.isDigit, rest.takeWhile Char.isDigit, h.symm,
          h1, h2, all_takeWhile _ _, all_takeWhile _ _⟩
    · cases h

lemma findRange_shape (l r : List Char) (h : findRange l = some r) :
    ∃ a b, r = a ++ '-' :: b ∧ a ≠ [] ∧ b ≠ [] ∧
      (∀ c ∈ a, c.isDigit = true) ∧ (∀ c ∈ b, c.isDigit = true) := by
  induction l with
  | nil => cases h
  | cons c rest ih =>
    simp only [findRange] at h
    cases hm : rangeMatchAt (c :: rest) with
    | some m =>
      rw [hm] at h
      injection h with h
      exact h ▸ rangeMatchAt_shape _ m hm
    | none =>
      rw [hm] at h
      exact ih h

lemma dropWhile_eq_self_of (p : Char → Bool) (l : List Char)
    (h : ∀ c ∈ l, p c = false) : l.dropWhile p = l := by
  cases l with
  | nil => rfl
  | cons c rest =>
    rw [List.dropWhile_cons]
    simp [h c (List.mem_cons_self c rest)]

lemma stripChars_eq_self (l : List Char) (h : ∀ c ∈ l, c.isWhitespace = false) :
    stripChars l = l := by
  unfold stripChars
  rw [dropWhile_eq_self_of _ _ h,
    dropWhile_eq_self_of _ _ (fun c hc => h c (by simpa using hc)),
    List.reverse_reverse]

lemma isDigit_ne_dash (c : Char) (h : c.isDigit = true) : ¬ c = '-' := by
  rintro rfl
  exact absurd h (by decide)

lemma isDigit_not_ws (c : Char) (h : c.isDigit = true) : c.isWhitespace = false := by
  cases hws : c.isWhitespace with
  | false => rfl
  | true =>
    have h' : ((c = ' ' ∨ c = '\t') ∨ c = '\x0d') ∨ c = '\n' := by
      simpa [Char.isWhitespace] using hws
    rcases h' with ((rfl | rfl) | rfl) | rfl <;> exact absurd h (by decide)

lemma splitDash_no_dash (l : List Char) (h : ∀ c ∈ l, ¬ c = '-') :
    splitDash l = [l] := by
  induction l with
  | nil => rfl
  | cons c rest ih =>
    simp only [splitDash]
    rw [if_neg (h c (List.mem_cons_self c rest))]
    rw [ih (fun d hd => h d (List.mem_cons_of_mem c hd))]

lemma splitDash_split (a b : List Char) (ha : ∀ c ∈ a, ¬ c = '-')
    (hb : ∀ c ∈ b, ¬ c = '-') :
    splitDash (a ++ '-' :: b) = [a, b] := by
  induction a with
  | nil =>
    rw [List.nil_append]
    simp [splitDash, splitDash_no_dash b hb]
  | cons c rest ih =>
    rw [List.cons_append]
    simp only [splitDash]
    rw [if_neg (ha c (List.mem_cons_self c rest))]
    rw [ih (fun d hd => ha d (List.mem_cons_of_mem c hd))]

lemma parse_some_core (s : String) (hne : s.data ≠ []) :
    parse_yardage_range (some s) = parseRangeCore s.data := by
  show (if s.data.isEmpty = true then ("", "", "") else parseRangeCore s.data) = _
  rw [if_neg]
  simp [List.isEmpty_iff, hne]

lemma parseRangeCore_eq (l r a b : List Char) (hr : findRange l = some r)
    (hab : r = a ++ '-' :: b) (hda : ∀ c ∈ a, c.isDigit = true)
    (hdb : ∀ c ∈ b, c.isDigit = true) :
    parseRangeCore l = (String.mk r, String.mk a, String.mk b) := by
  have hand : ∀ c ∈ a, ¬ c = '-' := fun c hc => isDigit_ne_dash c (hda c hc)
  have hbnd : ∀ c ∈ b, ¬ c = '-' := fun c hc => isDigit_ne_dash c (hdb c hc)
  have hcont : r.contains '-' = true := by
    subst hab
    show List.elem '-' (a ++ '-' :: b) = true
    rw [List.elem_iff]
    simp
  unfold parseRangeCore
  simp only [hr, hcont, hab, splitDash_split a b hand hbnd, if_true,
    stripChars_eq_self a (fun c hc => isDigit_not_ws c (hda c hc)),
    stripChars_eq_self b (fun c hc => isDigit_not_ws c (hdb c hc))]
  rw [if_pos (hab ▸ hcont)]

/-! ## Claim C8: the Range Decomposer's behavior -/

/-- C8: `decompose("30-50 yards") = ("30-50","30","50")`; `"30-"`, `"-50"`
and `"30--50"` all yield the empty triple; and in general, when the first
digits-hyphen-digits substring exists the result is that substring with its
two digit parts, otherwise the all-empty triple. -/
theorem range_decompose_spec :
    parse_yardage_range (some "30-50 yards") = ("30-50", "30", "50") ∧
    parse_yardage_range (some "30-") = ("", "", "") ∧
    parse_yardage_range (some "-50") = ("", "", "") ∧
    parse_yardage_range (some "30--50") = ("", "", "") ∧
    ∀ s : String,
      (findRange s.data = none → parse_yardage_range (some s) = ("", "", "")) ∧
      (∀ r, findRange s.data = some r →
        ∃ a b, r = a ++ '-' :: b ∧ a ≠ [] ∧ b ≠ [] ∧
          (∀ c ∈ a, c.isDigit = true) ∧ (∀ c ∈ b, c.isDigit = true) ∧
          parse_yardage_range (some s) = (String.mk r, String.mk a, String.mk b)) := by
  refine ⟨by decide, by decide, by decide, by decide, ?_⟩
  intro s
  constructor
  · intro hnone
    cases hd : s.data with
    | nil =>
      show (if s.data.isEmpty = true then ("", "", "") else parseRangeCore s.data) = _
      rw [hd]
      rfl
    | cons c rest =>
      rw [parse_some_core s (by rw [hd]; simp)]
      unfold parseRangeCore
      rw [hnone]
  · intro r hr
    obtain ⟨a, b, hab, ha, hb, hda, hdb⟩ := findRange_shape s.data r hr
    refine ⟨a, b, hab, ha, hb, hda, hdb, ?_⟩
    have hne : s.data ≠ [] := by
      intro hnil
      rw [hnil] at hr
      cases hr
    rw [parse_some_core s hne, parseRangeCore_eq s.data r a b hr hab hda hdb]

theorem range_decompose_spec_witness :
    findRange ("30-50 yards").data = some ("30-50").data ∧
    (∃ a b, ("30-50").data = a ++ '-' :: b ∧ a ≠ [] ∧ b ≠ [] ∧
      (∀ c ∈ a, c.isDigit = true) ∧ (∀ c ∈ b, c.isDigit = true) ∧
      parse_yardage_range (some "30-50 yards") =
        (String.mk ("30-50").data, String.mk a, String.mk b)) ∧
    findRange ("30-").data = none ∧
    parse_yardage_range (some "30-") = ("", "", "") :=
  ⟨by decide,
   (range_decompose_spec.2.2.2.2 "30-50 yards").2 ("30-50").data (by decide),
   by decide,
   (range_decompose_spec.2.2.2.2 "30-").1 (by decide)⟩

/-! ## Lemmas about the Date Normalizer's output shape -/

lemma parseDay_shape (l d r : List Char) (h : parseDay l = some (d, r)) :
    (d.length = 1 ∨ d.length = 2) ∧ ∀ c ∈ d, c.isDigit = true := by
  unfold parseDay at h
  split at h
  · rename_i c₁ rest
    split at h
    · rename_i h1
      split at h
      · rename_i c₂ rest₂
        split at h
        · rename_i h2
          split at h
          · rename_i r'
            injection h with h
            rw [Prod.mk.injEq] at h
            obtain ⟨hd, _⟩ := h
            subst hd
            exact ⟨Or.inr rfl, by simp [h1, h2]⟩
          · cases h
        · split at h
          · injection h with h
            rw [Prod.mk.injEq] at h
            obtain ⟨hd, _⟩ := h
            subst hd
            exact ⟨Or.inl rfl, by simp [h1]⟩
          · cases h
      · cases h
    · cases h
  · cases h

lemma parseYear_shape (l y : List Char) (h : parseYear l = some y) :
    y.length = 4 ∧ ∀ c ∈ y, c.isDigit = true := by
  unfold parseYear at h
  split at h
  · split at h
    · rename_i habcd
      injection h with h
      subst h
      simp only [Bool.and_eq_true] at habcd
      refine ⟨rfl, ?_⟩
      intro c hc
      simp only [List.mem_cons, List.not_mem_nil, or_false] at hc
      rcases hc with rfl | rfl | rfl | rfl
      · exact habcd.1.1.1
      · exact habcd.1.1.2
      · exact habcd.1.2
      · exact habcd.2
    · cases h
  · cases h

lemma matchDate_shape (l mon day year : List Char)
    (h : matchDate l = some (mon, day, year)) :
    ((day.length = 1 ∨ day.length = 2) ∧ ∀ c ∈ day, c.isDigit = true) ∧
    (year.length = 4 ∧ ∀ c ∈ year, c.isDigit = true) := by
  simp only [matchDate] at h
  split at h
  · cases h
  · split at h
    · cases h
    · split at h
      · cases h
      · rename_i day' r₃ hpd
        split at h
        · cases h
        · rename_i year' hpy
          injection h with h
          rw [Prod.mk.injEq] at h
          obtain ⟨_, h⟩ := h
          rw [Prod.mk.injEq] at h
          obtain ⟨hd, hy⟩ := h
          subst hd
          subst hy
          exact ⟨parseDay_shape _ _ _ hpd, parseYear_shape _ _ hpy⟩

lemma lookupStr_mem (k v : String) (l : List (String × String))
    (h : lookupStr k l = some v) : v ∈ l.map Prod.snd := by
  induction l with
  | nil => cases h
  | cons p rest ih =>
    obtain ⟨k₀, v₀⟩ := p
    rw [lookupStr] at h
    split at h
    · injection h with h
      subst h
      simp
    · simp [ih h]

lemma lookupStr_month (m v : String) (h : lookupStr m month_map = some v) :
    v.length = 2 ∧ ∀ c ∈ v.data, c.isDigit = true := by
  have hmem := lookupStr_mem m v month_map h
  fin_cases hmem <;> exact ⟨by decide, by decide⟩

lemma zfill2_day (d : List Char) (hlen : d.length = 1 ∨ d.length = 2)
    (hd : ∀ c ∈ d, c.isDigit = true) :
    (zfill2 (String.mk d)).length = 2 ∧
    ∀ c ∈ (zfill2 (String.mk d)).data, c.isDigit = true := by
  have hmklen : (String.mk d).length = d.length := rfl
  unfold zfill2
  rcases hlen with h1 | h2
  · rw [if_pos (by rw [hmklen, h1]; omega)]
    refine ⟨?_, ?_⟩
    · rw [String.length_append, hmklen, h1]
      decide
    · intro c hc
      rw [String.data_append] at hc
      rcases List.mem_append.mp hc with hc0 | hcd
      · have hc0' : c = '0' := by
          have hzd : ("0" : String).data = ['0'] := rfl
          rw [hzd] at hc0
          simpa using hc0
        subst hc0'
        decide
      · exact hd c hcd
  · rw [if_neg (by rw [hmklen, h2]; omega)]
    exact ⟨by rw [hmklen, h2], hd⟩

/-! ## Claim C5: the parsers never fault -/

/-- C5: for every input (null, empty or malformed), the Date Normalizer and
the Range Decomposer return defined results: the Date Normalizer yields
either `""` or an 8-digit string, the Range Decomposer either the all-empty
triple or a digits-hyphen-digits decomposition.  Every failure path is an
empty-result return; the embedding is total, so no fault propagates. -/
theorem parsers_never_raise :
    (∀ o : Option String, convert_date_to_yyyymmdd o = "" ∨
      ((convert_date_to_yyyymmdd o).length = 8 ∧
        ∀ c ∈ (convert_date_to_yyyymmdd o).data, c.isDigit = true)) ∧
    (∀ o : Option String, parse_yardage_range o = ("", "", "") ∨
      ∃ a b : List Char, a ≠ [] ∧ b ≠ [] ∧
        (∀ c ∈ a, c.isDigit = true) ∧ (∀ c ∈ b, c.isDigit = true) ∧
        parse_yardage_range o =
          (String.mk (a ++ '-' :: b), String.mk a, String.mk b)) := by
  constructor
  · intro o
    cases o with
    | none => exact Or.inl rfl
    | some s =>
      by_cases hd : s.data.isEmpty
      · left
        show (if s.data.isEmpty = true then "" else convertDateCore s.data) = ""
        rw [if_pos hd]
      · have hcv : convert_date_to_yyyymmdd (some s) = convertDateCore s.data := by
          show (if s.data.isEmpty = true then "" else convertDateCore s.data) = _
          rw [if_neg hd]
        rw [hcv]
        rcases hm : matchDate (s.data.map Char.toUpper) with _ | ⟨mon, day, year⟩
        · left
          simp only [convertDateCore, hm]
        · simp only [convertDateCore, hm]
          rcases hl : lookupStr (String.mk mon) month_map with _ | mm
          · left
            rfl
          · right
            obtain ⟨⟨hdl, hdd⟩, hyl, hyd⟩ := matchDate_shape _ mon day year hm
            obtain ⟨hml, hmd⟩ := lookupStr_month _ mm hl
            obtain ⟨hzl, hzd⟩ := zfill2_day day hdl hdd
            constructor
            · rw [String.length_append, String.length_append]
              have hy : (String.mk year).length = year.length := rfl
              rw [hy, hyl, hml, hzl]
            · intro c hc
              rw [String.data_append, String.data_append] at hc
              rcases List.mem_append.mp hc with hc1 | hc2
              · rcases List.mem_append.mp hc1 with hc11 | hc12
                · exact hyd c (by simpa using hc11)
                · exact hmd c hc12
              · exact hzd c hc2
  · intro o
    cases o with
    | none => exact Or.inl rfl
    | some s =>
      rcases hr : findRange s.data with _ | r
      · left
        rcases hd : s.data with _ | ⟨c, rest⟩
        · show (if s.data.isEmpty = true then ("", "", "") else parseRangeCore s.data) = _
          rw [hd]
          rfl
        · rw [parse_some_core s (by rw [hd]; simp)]
          unfold parseRangeCore
          rw [hr]
      · right
        obtain ⟨a, b, hab, ha, hb, hda, hdb⟩ := findRange_shape s.data r hr
        refine ⟨a, b, ha, hb, hda, hdb, ?_⟩
        have hne : s.data ≠ [] := by
          intro hnil
          rw [hnil] at hr
          cases hr
        rw [parse_some_core s hne, parseRangeCore_eq s.data r a b hr hab hda hdb,
          hab]

lemma firstFailing_cons_true (m : String) (rest : List (Bool × String)) :
    firstFailing ((true, m) :: rest) = some m := rfl

lemma firstFailing_cons_false (m : String) (rest : List (Bool × String)) :
    firstFailing ((false, m) :: rest) = firstFailing rest := rfl

/-! ## Claim C6: the Bounding-Box Validator -/

set_option maxHeartbeats 1000000 in
/-- C6: `validate_bbox` succeeds exactly when the region is a 4-element
list of numbers with `x ≥ 0`, `y ≥ 0`, `width > 0`, `height > 0`, each of
the four values at most 10000, `x + width ≤ 10000` and
`y + height ≤ 10000`; and on any 4-element numeric list the result is
determined by the first violated check of the fixed ordered check list
(`bboxChecks`), whose message names the offending field. -/
theorem validate_bbox_ok_iff :
    (∀ (v : PyVal) (n : String), validate_bbox v n = .ok () ↔
      ∃ x y w z : ℚ, v = .list [.num x, .num y, .num w, .num z] ∧
        0 ≤ x ∧ 0 ≤ y ∧ 0 < w ∧ 0 < z ∧ x ≤ 10000 ∧ y ≤ 10000 ∧ w ≤ 10000 ∧
        z ≤ 10000 ∧ x + w ≤ 10000 ∧ y + z ≤ 10000) ∧
    (∀ (n : String) (x y w z : ℚ),
      validate_bbox (.list [.num x, .num y, .num w, .num z]) n =
        match firstFailing (bboxChecks x y w z n) with
        | none => .ok ()
        | some msg => .error msg) := by
  constructor
  · intro v n
    constructor
    · intro hok
      cases v with
      | num q => exact Except.noConfusion hok
      | str s => exact Except.noConfusion hok
      | dict kvs => exact Except.noConfusion hok
      | list xs =>
        rcases xs with _ | ⟨a, _ | ⟨b, _ | ⟨c, _ | ⟨d, _ | ⟨e, rest⟩⟩⟩⟩⟩
        · exact Except.noConfusion hok
        · exact Except.noConfusion hok
        · exact Except.noConfusion hok
        · exact Except.noConfusion hok
        · cases a with
          | num x =>
            cases b with
            | num y =>
              cases c with
              | num w =>
                cases d with
                | num z =>
                  have hok' : checkBboxNums x y w z n = .ok () := hok
                  unfold checkBboxNums at hok'
                  split_ifs at hok' with h1 h2 h3 h4 h5 h6 h7 h8 h9 h10 <;>
                    try exact Except.noConfusion hok'
                  exact ⟨x, y, w, z, rfl, not_lt.mp h1, not_lt.mp h2,
                    not_le.mp h3, not_le.mp h4, not_lt.mp h5, not_lt.mp h6,
                    not_lt.mp h7, not_lt.mp h8, not_lt.mp h9, not_lt.mp h10⟩
                | str s => exact Except.noConfusion hok
                | list l => exact Except.noConfusion hok
                | dict kv => exact Except.noConfusion hok
              | str s => exact Except.noConfusion hok
              | list l => exact Except.noConfusion hok
              | dict kv => exact Except.noConfusion hok
            | str s => exact Except.noConfusion hok
            | list l => exact Except.noConfusion hok
            | dict kv => exact Except.noConfusion hok
          | str s => exact Except.noConfusion hok
          | list l => exact Except.noConfusion hok
          | dict kv => exact Except.noConfusion hok
        · exact Except.noConfusion hok
    · rintro ⟨x, y, w, z, rfl, hx, hy, hw, hz, hx2, hy2, hw2, hz2, hxw, hyz⟩
      show checkBboxNums x y w z n = .ok ()
      unfold checkBboxNums
      split_ifs <;> first | rfl | (exfalso; linarith)
  · intro n x y w z
    show checkBboxNums x y w z n = _
    unfold checkBboxNums bboxChecks
    by_cases h1 : x < 0
    · rw [if_pos h1, decide_eq_true h1, firstFailing_cons_true]
    · rw [if_neg h1, decide_eq_false h1, firstFailing_cons_false]
      by_cases h2 : y < 0
      · rw [if_pos h2, decide_eq_true h2, firstFailing_cons_true]
      · rw [if_neg h2, decide_eq_false h2, firstFailing_cons_false]
        by_cases h3 : w ≤ 0
        · rw [if_pos h3, decide_eq_true h3, firstFailing_cons_true]
        · rw [if_neg h3, decide_eq_false h3, firstFailing_cons_false]
          by_cases h4 : z ≤ 0
          · rw [if_pos h4, decide_eq_true h4, firstFailing_cons_true]
          · rw [if_neg h4, decide_eq_false h4, firstFailing_cons_false]
            by_cases h5 : 10000 < x
            · rw [if_pos h5, decide_eq_true h5, firstFailing_cons_true]
            · rw [if_neg h5, decide_eq_false h5, firstFailing_cons_false]
              by_cases h6 : 10000 < y
              · rw [if_pos h6, decide_eq_true h6, firstFailing_cons_true]
              · rw [if_neg h6, decide_eq_false h6, firstFailing_cons_false]
                by_cases h7 : 10000 < w
                · rw [if_pos h7, decide_eq_true h7, firstFailing_cons_true]
                · rw [if_neg h7, decide_eq_false h7, firstFailing_cons_false]
                  by_cases h8 : 10000 < z
                  · rw [if_pos h8, decide_eq_true h8, firstFailing_cons_true]
                  · rw [if_neg h8, decide_eq_false h8, firstFailing_cons_false]
                    by_cases h9 : 10000 < x + w
                    · rw [if_pos h9, decide_eq_true h9, firstFailing_cons_true]
                    · rw [if_neg h9, decide_eq_false h9, firstFailing_cons_false]
                      by_cases h10 : 10000 < y + z
                      · rw [if_pos h10, decide_eq_true h10, firstFailing_cons_true]
                      · rw [if_neg h10, decide_eq_false h10, firstFailing_cons_false]
                        rfl

/-! ## Claim C7: the Configuration Validator -/

/-- C7 counterexample: a document whose metrics mapping lacks the mandatory
metric CARRY but whose DISTANCE_TO_PIN entry is not a mapping is rejected
with a message about DISTANCE_TO_PIN that does not mention CARRY — so a
document lacking a mandatory metric is not always reported with that
metric's name. -/
theorem config_missing_metric_counterexample :
    (lookupKey "CARRY" [("DISTANCE_TO_PIN", PyVal.num 5)]).isNone = true ∧
    validate_config [("metrics", PyVal.dict [("DISTANCE_TO_PIN", PyVal.num 5)])] =
      .error "Metric DISTANCE_TO_PIN must be a dictionary" ∧
    strContains "Metric DISTANCE_TO_PIN must be a dictionary" "CARRY" = false :=
  ⟨rfl, rfl, by decide⟩

lemma checkRequired_missing (metrics : List (String × PyVal)) (pre : List String)
    (m : String) (rest : List String)
    (hpre : ∀ s ∈ pre, goodRequired metrics s)
    (hm : lookupKey m metrics = none) :
    checkRequired metrics (pre ++ m :: rest) =
      .error ("Missing required metric in configuration: " ++ m) := by
  induction pre with
  | nil =>
    rw [List.nil_append]
    simp only [checkRequired, hm]
  | cons p pre ih =>
    obtain ⟨kvs, b, hp1, hp2, hp3⟩ := hpre p (List.mem_cons_self p pre)
    rw [List.cons_append]
    simp only [checkRequired, hp1, hp2, hp3]
    exact ih (fun s hs => hpre s (List.mem_cons_of_mem p hs))

lemma checkRequired_all_good (metrics : List (String × PyVal)) (req : List String)
    (hall : ∀ s ∈ req, goodRequired metrics s) :
    checkRequired metrics req = .ok () := by
  induction req with
  | nil => rfl
  | cons m rest ih =>
    obtain ⟨kvs, b, h1, h2, h3⟩ := hall m (List.mem_cons_self m rest)
    simp only [checkRequired, h1, h2, h3]
    exact ih (fun s hs => hall s (List.mem_cons_of_mem m hs))

lemma checkAllMetrics_all_good (metrics : List (String × PyVal))
    (hall : ∀ nv ∈ metrics, entryOK nv) :
    checkAllMetrics metrics = .ok () := by
  induction metrics with
  | nil => rfl
  | cons nv rest ih =>
    obtain ⟨name, v⟩ := nv
    obtain ⟨kvs, hdict, hbb⟩ := hall (name, v) (List.mem_cons_self _ rest)
    have hdict' : v = .dict kvs := hdict
    subst hdict'
    simp only [checkAllMetrics]
    have hrest := ih (fun s hs => hall s (List.mem_cons_of_mem _ hs))
    have hbb' : ∀ b, lookupKey "bbox" kvs = some b →
        validate_bbox b name = .ok () := hbb
    cases hb : lookupKey "bbox" kvs with
    | none => exact hrest
    | some b =>
      show (match validate_bbox b name with
            | Except.ok _ => checkAllMetrics rest
            | Except.error e => Except.error e) = Except.ok ()
      rw [hbb' b hb]
      exact hrest

/-- C7 (amended): a document whose metrics mapping lacks a mandatory metric
fails, and the message names that metric provided every mandatory metric
earlier in the declared order is present as a mapping with a bbox passing
validation (otherwise the earlier metric's failure is reported instead,
here shown by the counterexample); a mandatory metric whose bbox has a
negative x fails with a message naming the negative x coordinate; and a
document whose mandatory metrics all validate and whose entries are all
mappings with valid-or-absent bboxes is accepted — in particular optional
metric entries that are mappings without a bbox key are accepted. -/
theorem validate_config_spec :
    (∀ (cfg metrics : List (String × PyVal)) (pre : List String) (m : String)
        (rest : List String),
      lookupKey "metrics" cfg = some (.dict metrics) →
      required_metrics = pre ++ m :: rest →
      (∀ s ∈ pre, goodRequired metrics s) →
      lookupKey m metrics = none →
      validate_config cfg =
        .error ("Missing required metric in configuration: " ++ m)) ∧
    (∀ (cfg metrics : List (String × PyVal)),
      lookupKey "metrics" cfg = some (.dict metrics) →
      (∀ s ∈ required_metrics, goodRequired metrics s) →
      (∀ nv ∈ metrics, entryOK nv) →
      validate_config cfg = .ok ()) ∧
    validate_config
        [("metrics", PyVal.dict
          [("DISTANCE_TO_PIN", PyVal.dict
            [("bbox", PyVal.list [.num (-10), .num 0, .num 100, .num 50])])])] =
      .error ("Invalid bbox for DISTANCE_TO_PIN: x coordinate cannot be negative, got " ++ toString (-10 : ℚ)) ∧
    strContains
      ("Invalid bbox for DISTANCE_TO_PIN: x coordinate cannot be negative, got " ++ toString (-10 : ℚ))
      "x coordinate cannot be negative" = true := by
  refine ⟨?_, ?_, rfl, by decide⟩
  · intro cfg metrics pre m rest hcfg hreq hpre hm
    simp only [validate_config, hcfg]
    rw [hreq, checkRequired_missing metrics pre m rest hpre hm]
  · intro cfg metrics hcfg hreqs hentries
    simp only [validate_config, hcfg]
    rw [checkRequired_all_good metrics required_metrics hreqs]
    exact checkAllMetrics_all_good metrics hentries

/-- A geometrically valid bbox shared by the C7 witness metrics. -/
def wGoodBbox : PyVal := .list [.num 0, .num 0, .num 100, .num 50]

lemma wGoodBbox_ok (n : String) : validate_bbox wGoodBbox n = .ok () := by
  show checkBboxNums 0 0 100 50 n = .ok ()
  unfold checkBboxNums
  norm_num

/-- A metric entry holding the valid witness bbox. -/
def wGoodEntry : PyVal := .dict [("bbox", wGoodBbox)]

/-- Metrics mapping with a valid DISTANCE_TO_PIN but no CARRY. -/
def wMetricsMissing : List (String × PyVal) := [("DISTANCE_TO_PIN", wGoodEntry)]

/-- Metrics mapping with all four mandatory metrics valid plus an optional
metric that is a mapping without a bbox. -/
def wMetricsOk : List (String × PyVal) :=
  [("DISTANCE_TO_PIN", wGoodEntry), ("CARRY", wGoodEntry),
   ("FROM_PIN", wGoodEntry), ("STROKES_GAINED", wGoodEntry),
   ("SHOT_ID", .dict [])]

theorem validate_config_spec_witness :
    lookupKey "metrics" [("metrics", PyVal.dict wMetricsMissing)] =
      some (.dict wMetricsMissing) ∧
    required_metrics =
      ["DISTANCE_TO_PIN"] ++ "CARRY" :: ["FROM_PIN", "STROKES_GAINED"] ∧
    lookupKey "CARRY" wMetricsMissing = none ∧
    validate_config [("metrics", PyVal.dict wMetricsMissing)] =
      .error ("Missing required metric in configuration: " ++ "CARRY") ∧
    validate_config [("metrics", PyVal.dict wMetricsOk)] = .ok () := by
  refine ⟨rfl, rfl, rfl, ?_, ?_⟩
  · apply validate_config_spec.1 [("metrics", PyVal.dict wMetricsMissing)]
      wMetricsMissing ["DISTANCE_TO_PIN"] "CARRY"
      ["FROM_PIN", "STROKES_GAINED"] rfl rfl ?_ rfl
    intro s hs
    have hs' : s = "DISTANCE_TO_PIN" := by simpa using hs
    subst hs'
    exact ⟨[("bbox", wGoodBbox)], wGoodBbox, rfl, rfl, wGoodBbox_ok _⟩
  · apply validate_config_spec.2.1 [("metrics", PyVal.dict wMetricsOk)]
      wMetricsOk rfl ?_ ?_
    · intro s hs
      fin_cases hs <;>
        exact ⟨[("bbox", wGoodBbox)], wGoodBbox, rfl, rfl, wGoodBbox_ok _⟩
    · intro nv hnv
      fin_cases hnv
      · exact ⟨[("bbox", wGoodBbox)], rfl, fun b hb => by
          have hb' : some wGoodBbox = some b := hb
          injection hb' with hb'
          subst hb'
          exact wGoodBbox_ok _⟩
      · exact ⟨[("bbox", wGoodBbox)], rfl, fun b hb => by
          have hb' : some wGoodBbox = some b := hb
          injection hb' with hb'
          subst hb'
          exact wGoodBbox_ok _⟩
      · exact ⟨[("bbox", wGoodBbox)], rfl, fun b hb => by
          have hb' : some wGoodBbox = some b := hb
          injection hb' with hb'
          subst hb'
          exact wGoodBbox_ok _⟩
      · exact ⟨[("bbox", wGoodBbox)], rfl, fun b hb => by
          have hb' : some wGoodBbox = some b := hb
          injection hb' with hb'
          subst hb'
          exact wGoodBbox_ok _⟩
      · exact ⟨[], rfl, fun b hb => by
          have hb' : (none : Option PyVal) = some b := hb
          cases hb'⟩

theorem parsers_never_raise_witness :
    (convert_date_to_yyyymmdd (some "JULY 1, 2025") = "" ∨
      ((convert_date_to_yyyymmdd (some "JULY 1, 2025")).length = 8 ∧
        ∀ c ∈ (convert_date_to_yyyymmdd (some "JULY 1, 2025")).data,
          c.isDigit = true)) ∧
    (parse_yardage_range (some "not a range") = ("", "", "") ∨
      ∃ a b : List Char, a ≠ [] ∧ b ≠ [] ∧
        (∀ c ∈ a, c.isDigit = true) ∧ (∀ c ∈ b, c.isDigit = true) ∧
        parse_yardage_range (some "not a range") =
          (String.mk (a ++ '-' :: b), String.mk a, String.mk b)) :=
  ⟨parsers_never_raise.1 (some "JULY 1, 2025"),
   parsers_never_raise.2 (some "not a range")⟩

theorem validate_bbox_ok_iff_witness :
    (validate_bbox (.list [.num (-10), .num 0, .num 100, .num 50]) "M" = .ok () ↔
      ∃ x y w z : ℚ,
        PyVal.list [.num (-10), .num 0, .num 100, .num 50] =
          .list [.num x, .num y, .num w, .num z] ∧
        0 ≤ x ∧ 0 ≤ y ∧ 0 < w ∧ 0 < z ∧ x ≤ 10000 ∧ y ≤ 10000 ∧ w ≤ 10000 ∧
        z ≤ 10000 ∧ x + w ≤ 10000 ∧ y + z ≤ 10000) ∧
    validate_bbox (.list [.num (-10), .num 0, .num 100, .num 50]) "M" =
      (match firstFailing (bboxChecks (-10) 0 100 50 "M") with
       | none => Except.ok ()
       | some msg => Except.error msg) :=
  ⟨validate_bbox_ok_iff.1 (.list [.num (-10), .num 0, .num 100, .num 50]) "M",
   validate_bbox_ok_iff.2 "M" (-10) 0 100 50⟩
